import Mathlib

/-!
# Verification of the `django-react-bridge` request pipeline

A shallow embedding of the `ApiClient` class (`src/apiClient.ts`) of the
`django-react-bridge` package, together with theorems settling the spec's
claims about it.  Each definition mirrors one piece of the TypeScript
source; line numbers in the comments refer to `src/apiClient.ts`.

Modelling conventions:
* TypeScript strings are `String` (or `List Char` where character-level
  reasoning is needed, as for the cache-key serialization).
* `undefined`/absent values are `Option.none`; a JS value that the code
  only ever consults for truthiness is modelled at its observable type.
* Promises are values: a settled async computation is an `Except`
  (rejection = `Except.error`), and a scripted environment (transport
  responses, refresh-endpoint outcomes) is passed in as data.
* `Date.now()` instants are `Nat` parameters; JWT numeric claims are `Int`.
-/

set_option autoImplicit false

universe u v w

namespace ApiClient

/-! ## Retry policy (`withRetry`, lines 151-163)

```ts
private async withRetry<T>(requestFn, retryCount, retryDelay) {
  try { return await requestFn() } catch (error) {
    if (retryCount <= 0) throw error
    await new Promise(resolve => setTimeout(resolve, retryDelay))
    return this.withRetry(requestFn, retryCount - 1, retryDelay * 2)
  }
}
```

The operation is modelled as `f : Nat → Except ε α`, mapping the attempt
index to that attempt's settled outcome.  The model returns the final
outcome together with the number of attempts executed and the list of
delays awaited between attempts. -/

def withRetry {ε : Type u} {α : Type v} (f : Nat → Except ε α)
    (attempt retryCount retryDelay : Nat) : Except ε α × Nat × List Nat :=
  match f attempt with
  | Except.ok a => (Except.ok a, 1, [])
  | Except.error e =>
    match retryCount with
    | 0 => (Except.error e, 1, [])
    | Nat.succ n =>
      let r := withRetry f (attempt + 1) n (retryDelay * 2)
      (r.1, r.2.1 + 1, retryDelay :: r.2.2)

/-- The exponential-backoff schedule `[d, 2d, 4d, ...]` of length `k`. -/
def geomDelays (d k : Nat) : List Nat :=
  (List.range k).map (fun i => d * 2 ^ i)

theorem geomDelays_zero (d : Nat) : geomDelays d 0 = [] := rfl

theorem geomDelays_succ (d k : Nat) :
    geomDelays d (k + 1) = d :: geomDelays (d * 2) k := by
  unfold geomDelays
  rw [List.range_succ_eq_map, List.map_cons, List.map_map]
  refine congrArg₂ _ (by ring) (List.map_congr_left ?_)
  intro i _
  show d * 2 ^ (i + 1) = d * 2 * 2 ^ i
  ring

lemma withRetry_eventual_ok {ε : Type u} {α : Type v} (f : Nat → Except ε α) (v : α) :
    ∀ (K a d : Nat), (∀ i, i < K → ∃ e, f (a + i) = Except.error e) →
      f (a + K) = Except.ok v →
      withRetry f a K d = (Except.ok v, K + 1, geomDelays d K) := by
  intro K
  induction K with
  | zero =>
    intro a d _ h2
    simp only [Nat.add_zero] at h2
    simp [withRetry, h2, geomDelays]
  | succ n ih =>
    intro a d h1 h2
    obtain ⟨e, he⟩ := h1 0 (Nat.succ_pos n)
    simp only [Nat.add_zero] at he
    have hrec := ih (a + 1) (d * 2)
      (fun i hi => by
        have h := h1 (i + 1) (by omega)
        rw [show a + 1 + i = a + (i + 1) by omega]
        exact h)
      (by rw [show a + 1 + n = a + (n + 1) by omega]; exact h2)
    show withRetry f a (n + 1) d = _
    rw [withRetry, he]
    simp [hrec, geomDelays_succ]

lemma withRetry_exhaust {ε : Type u} {α : Type v} (f : Nat → Except ε α) :
    ∀ (K a d : Nat), (∀ i, i ≤ K → ∃ e, f (a + i) = Except.error e) →
      ∃ e, f (a + K) = Except.error e ∧
        withRetry f a K d = (Except.error e, K + 1, geomDelays d K) := by
  intro K
  induction K with
  | zero =>
    intro a d h1
    obtain ⟨e, he⟩ := h1 0 (Nat.le_refl 0)
    refine ⟨e, he, ?_⟩
    simp only [Nat.add_zero] at he
    simp [withRetry, he, geomDelays]
  | succ n ih =>
    intro a d h1
    obtain ⟨e0, he0⟩ := h1 0 (Nat.zero_le _)
    simp only [Nat.add_zero] at he0
    obtain ⟨e, he, hrec⟩ := ih (a + 1) (d * 2)
      (fun i hi => by
        have h := h1 (i + 1) (by omega)
        rw [show a + 1 + i = a + (i + 1) by omega]
        exact h)
    refine ⟨e, ?_, ?_⟩
    · rw [show a + (n + 1) = a + 1 + n by omega]; exact he
    · show withRetry f a (n + 1) d = _
      rw [withRetry, he0]
      simp [hrec, geomDelays_succ]

/-- C4: for an asynchronous operation wrapped with retry count `K` and initial
delay `d`: if the operation fails on attempts `0..K-1` and succeeds on attempt
`K`, the success result is returned after exactly `K` retries (`K+1` attempts)
with waits `d, 2d, 4d, ...` between successive attempts; if it fails on every
attempt, exactly `K+1` attempts are made and the last failure is propagated
unchanged, regardless of the failures' type or value. -/
theorem withRetry_retry_contract {ε : Type u} {α : Type v}
    (K a d : Nat) (f : Nat → Except ε α) :
    (∀ v : α, (∀ i, i < K → ∃ e, f (a + i) = Except.error e) →
        f (a + K) = Except.ok v →
        withRetry f a K d = (Except.ok v, K + 1, geomDelays d K)) ∧
    ((∀ i, i ≤ K → ∃ e, f (a + i) = Except.error e) →
        ∃ e, f (a + K) = Except.error e ∧
          withRetry f a K d = (Except.error e, K + 1, geomDelays d K)) :=
  ⟨fun v h1 h2 => withRetry_eventual_ok f v K a d h1 h2,
   fun h1 => withRetry_exhaust f K a d h1⟩

/-- A scripted operation that fails twice and then succeeds with `7`. -/
def failTwiceThenOk : Nat → Except Unit Nat :=
  fun i => if i < 2 then Except.error () else Except.ok 7

/-- A scripted operation that fails on every attempt, with the attempt index
as the failure payload. -/
def alwaysFail : Nat → Except Nat Nat :=
  fun i => Except.error i

theorem withRetry_retry_contract_witness :
    withRetry failTwiceThenOk 0 2 100 = (Except.ok 7, 3, [100, 200]) ∧
    withRetry alwaysFail 0 2 100 = (Except.error 2, 3, [100, 200]) := by
  constructor
  · have h := (withRetry_retry_contract 2 0 100 failTwiceThenOk).1 7
      (fun i hi => ⟨(), by interval_cases i <;> rfl⟩) rfl
    simpa [geomDelays] using h
  · obtain ⟨e, he, hr⟩ := (withRetry_retry_contract 2 0 100 alwaysFail).2
      (fun i _ => ⟨0 + i, rfl⟩)
    have he2 : e = 2 := by simpa [alwaysFail] using he.symm
    subst he2
    simpa [geomDelays] using hr

/-! ## Cache key derivation (`get`, line 191)

```ts
const cacheKey = `${url}${JSON.stringify(axiosConfig.params || {})}`
```

`JSON.stringify` of a flat object with string values emits the entries in
the object's insertion order — there is no canonicalization.  Params are
modelled as an insertion-ordered association list of key/value strings
(strings as `List Char`); the serializer below reproduces the
`JSON.stringify` output shape for strings that contain no character
requiring a JSON escape, which is the domain on which the injectivity
theorem is stated. -/

def serItems : List (List Char × List Char) → List Char
  | [] => []
  | (k, v) :: rest =>
      '"' :: (k ++ '"' :: ':' :: '"' :: (v ++ '"' ::
        (if rest.isEmpty then [] else ',' :: serItems rest)))

def serParams (ps : List (List Char × List Char)) : List Char :=
  '{' :: (serItems ps ++ ['}'])

def cacheKey (url : List Char) (ps : List (List Char × List Char)) : List Char :=
  url ++ serParams ps

/-- The string contains no double-quote character. -/
abbrev noQuote (s : List Char) : Prop := ∀ c ∈ s, c ≠ '"'

/-- Every key and value of the params list is quote-free. -/
abbrev cleanParams (ps : List (List Char × List Char)) : Prop :=
  ∀ p ∈ ps, noQuote p.1 ∧ noQuote p.2

lemma append_marker_inj (ch : Char) :
    ∀ (u u' s s' : List Char), (∀ c ∈ u, c ≠ ch) → (∀ c ∈ u', c ≠ ch) →
      u ++ ch :: s = u' ++ ch :: s' → u = u' ∧ s = s' := by
  intro u
  induction u with
  | nil =>
    intro u' s s' _ h2 heq
    cases u' with
    | nil => simpa using heq
    | cons c t =>
      exfalso
      simp only [List.nil_append, List.cons_append, List.cons.injEq] at heq
      exact h2 c (List.mem_cons_self c t) heq.1.symm
  | cons c t ih =>
    intro u' s s' h1 h2 heq
    cases u' with
    | nil =>
      exfalso
      simp only [List.cons_append, List.nil_append, List.cons.injEq] at heq
      exact h1 c (List.mem_cons_self c t) heq.1
    | cons c2 t2 =>
      simp only [List.cons_append, List.cons.injEq] at heq
      obtain ⟨hc, ht⟩ := heq
      obtain ⟨ht2, hs⟩ := ih t2 s s'
        (fun x hx => h1 x (List.mem_cons_of_mem _ hx))
        (fun x hx => h2 x (List.mem_cons_of_mem _ hx)) ht
      exact ⟨by rw [hc, ht2], hs⟩

lemma serItems_inj : ∀ (ps ps' : List (List Char × List Char)),
    cleanParams ps → cleanParams ps' → serItems ps = serItems ps' → ps = ps' := by
  intro ps
  induction ps with
  | nil =>
    intro ps' _ _ heq
    cases ps' with
    | nil => rfl
    | cons kv r => exact absurd heq (by obtain ⟨k, v⟩ := kv; simp [serItems])
  | cons kv r ih =>
    intro ps' h1 h2 heq
    obtain ⟨k, v⟩ := kv
    cases ps' with
    | nil => exact absurd heq (by simp [serItems])
    | cons kv2 r2 =>
      obtain ⟨k2, v2⟩ := kv2
      have hk1 : noQuote k := (h1 (k, v) (List.mem_cons_self _ _)).1
      have hv1 : noQuote v := (h1 (k, v) (List.mem_cons_self _ _)).2
      have hk2 : noQuote k2 := (h2 (k2, v2) (List.mem_cons_self _ _)).1
      have hv2 : noQuote v2 := (h2 (k2, v2) (List.mem_cons_self _ _)).2
      simp only [serItems, List.cons.injEq, true_and] at heq
      obtain ⟨hkeq, hrest⟩ := append_marker_inj '"' k k2 _ _ hk1 hk2 heq
      simp only [List.cons.injEq, true_and] at hrest
      obtain ⟨hveq, hT⟩ := append_marker_inj '"' v v2 _ _ hv1 hv2 hrest
      subst hkeq
      subst hveq
      cases r with
      | nil =>
        cases r2 with
        | nil => rfl
        | cons a b => exact absurd hT (by simp)
      | cons a b =>
        cases r2 with
        | nil => exact absurd hT (by simp)
        | cons a2 b2 =>
          simp only [List.isEmpty_cons, List.cons.injEq, true_and,
            if_neg Bool.false_ne_true] at hT
          have hr := ih (a2 :: b2)
            (fun p hp => h1 p (List.mem_cons_of_mem _ hp))
            (fun p hp => h2 p (List.mem_cons_of_mem _ hp)) hT
          rw [hr]

/-- C5 amended: the cache-key derivation is deterministic but NOT
canonicalized.  On the faithful domain — paths without a left-brace
character, params whose keys and values are quote-free — two keys are
equal iff the path and the (insertion-ordered) params list are literally
equal.  In particular equal parameter sets supplied in different object-key
orders derive DIFFERENT keys (see the counterexample theorem); distinct
(path, ordered-params) pairs on this domain never collide. -/
theorem cacheKey_characterization :
    ∀ (u u' : List Char) (ps ps' : List (List Char × List Char)),
      (∀ c ∈ u, c ≠ '{') → (∀ c ∈ u', c ≠ '{') →
      cleanParams ps → cleanParams ps' →
      (cacheKey u ps = cacheKey u' ps' ↔ (u = u' ∧ ps = ps')) := by
  intro u u' ps ps' hu hu' hp hp'
  constructor
  · intro h
    unfold cacheKey serParams at h
    obtain ⟨huu, hss⟩ := append_marker_inj '{' u u' _ _ hu hu' h
    have hsi := (List.append_inj' hss rfl).1
    exact ⟨huu, serItems_inj ps ps' hp hp' hsi⟩
  · rintro ⟨rfl, rfl⟩
    rfl

def itemsPath : List Char := ['/', 'i', 't', 'e', 'm', 's']

def paramA : List Char × List Char := (['a'], ['1'])

def paramB : List Char × List Char := (['b'], ['2'])

/-- C5 counterexample: the same path with the same parameter set supplied in
two different object-key orders (a permutation of the same entries) derives
two DIFFERENT cache keys — the derivation does not canonicalize params, so
"keys are equal iff (path, params) are semantically equal" is false. -/
theorem cacheKey_order_sensitive :
    List.Perm [paramA, paramB] [paramB, paramA] ∧
    cacheKey itemsPath [paramA, paramB] ≠ cacheKey itemsPath [paramB, paramA] := by
  constructor
  · exact List.Perm.swap paramB paramA []
  · decide

theorem cacheKey_characterization_witness :
    cacheKey itemsPath [paramA] = cacheKey itemsPath [paramA] ↔
      (itemsPath = itemsPath ∧ [paramA] = [paramA]) :=
  cacheKey_characterization itemsPath itemsPath [paramA] [paramA]
    (by decide) (by decide) (by decide) (by decide)

/-! ## Cache layer and the `get` pipeline (lines 16, 193-210)

```ts
private cache: Record<string, { data: any; expiry: number }> = {}
...
if (useCache && this.cache[cacheKey] && this.cache[cacheKey].expiry > Date.now()) {
  return this.cache[cacheKey].data
}
const result = shouldRetry ? await this.withRetry(requestFn, maxRetries, delay)
                           : await requestFn()
if (useCache) {
  this.cache[cacheKey] = { data: result, expiry: Date.now() + cacheTime }
}
return result
```

The cache record is an association list; `Date.now()` at the hit check and
at the populate step are separate parameters (`tCheck`, `tPut`) since time
passes during the dispatch.  The dispatch (the whole
`withRetry`/`requestFn` call) is passed in as its settled outcome, and the
model reports how many such dispatches ran (0 on a cache hit, 1 otherwise). -/

structure CacheEntry (α : Type u) where
  data : α
  expiry : Nat
  deriving DecidableEq

def cacheLookup {κ : Type u} {α : Type v} [DecidableEq κ] (k : κ) :
    List (κ × CacheEntry α) → Option (CacheEntry α)
  | [] => none
  | (k2, e) :: rest => if k2 = k then some e else cacheLookup k rest

/-- `this.cache[cacheKey] = entry`: JS object-key assignment overwrites. -/
def cachePut {κ : Type u} {α : Type v} [DecidableEq κ] (k : κ) (e : CacheEntry α)
    (c : List (κ × CacheEntry α)) : List (κ × CacheEntry α) :=
  (k, e) :: c.filter (fun p => p.1 ≠ k)

structure GetLog (ε : Type u) (α : Type v) (κ : Type w) where
  result : Except ε α
  cacheAfter : List (κ × CacheEntry α)
  dispatches : Nat

def getModel {ε : Type u} {κ : Type w} {α : Type v} [DecidableEq κ]
    (c : List (κ × CacheEntry α)) (key : κ) (useCache : Bool)
    (ttl tCheck tPut : Nat) (dispatch : Except ε α) : GetLog ε α κ :=
  let hit : Option α :=
    match (if useCache then cacheLookup key c else none) with
    | some e => if tCheck < e.expiry then some e.data else none
    | none => none
  match hit with
  | some v => ⟨Except.ok v, c, 0⟩
  | none =>
    match dispatch with
    | Except.ok v =>
        ⟨Except.ok v, if useCache then cachePut key ⟨v, tPut + ttl⟩ c else c, 1⟩
    | Except.error e => ⟨Except.error e, c, 1⟩

lemma cacheLookup_put_self {κ : Type u} {α : Type v} [DecidableEq κ]
    (k : κ) (e : CacheEntry α) (c : List (κ × CacheEntry α)) :
    cacheLookup k (cachePut k e c) = some e := by
  simp [cacheLookup, cachePut]

lemma cacheLookup_filter {κ : Type u} {α : Type v} [DecidableEq κ]
    (k k2 : κ) (h : k ≠ k2) :
    ∀ (l : List (κ × CacheEntry α)),
      cacheLookup k2 (l.filter (fun p => p.1 ≠ k)) = cacheLookup k2 l := by
  intro l
  induction l with
  | nil => rfl
  | cons p rest ih =>
    obtain ⟨p1, p2⟩ := p
    by_cases hp : p1 = k
    · rw [List.filter_cons_of_neg (by simp [hp])]
      rw [ih]
      show cacheLookup k2 rest = cacheLookup k2 ((p1, p2) :: rest)
      have hne : p1 ≠ k2 := fun hh => h (hp.symm.trans hh)
      simp [cacheLookup, hne]
    · rw [List.filter_cons_of_pos (by simpa using hp)]
      show cacheLookup k2 ((p1, p2) :: _) = cacheLookup k2 ((p1, p2) :: rest)
      by_cases hp2 : p1 = k2
      · simp [cacheLookup, hp2]
      · simp only [cacheLookup, if_neg hp2]
        exact ih

lemma cacheLookup_put_other {κ : Type u} {α : Type v} [DecidableEq κ]
    (k k2 : κ) (e : CacheEntry α) (c : List (κ × CacheEntry α)) (h : k ≠ k2) :
    cacheLookup k2 (cachePut k e c) = cacheLookup k2 c := by
  show cacheLookup k2 ((k, e) :: _) = cacheLookup k2 c
  simp only [cacheLookup, if_neg h]
  exact cacheLookup_filter k k2 h c

/-- C6: with caching enabled, a GET whose key is absent from the cache
dispatches and stores its successful payload with expiry `tPut + ttl`.  A
second call with identical path and params made while that expiry is still
in the future returns the cached payload with zero dispatches and leaves
the cache unchanged; a second call at or after the expiry dispatches again
and, on success, overwrites the entry with expiry = (its populate time) + ttl. -/
theorem get_cache_ttl_contract {ε : Type u} {α : Type v}
    (c : List (List Char × CacheEntry α)) (url : List Char)
    (ps : List (List Char × List Char)) (ttl t1c t1p t2c t2p : Nat)
    (v : α) (d2 : Except ε α)
    (hmiss : cacheLookup (cacheKey url ps) c = none) :
    let L1 := getModel c (cacheKey url ps) true ttl t1c t1p (Except.ok v : Except ε α)
    (L1.result = Except.ok v ∧ L1.dispatches = 1 ∧
      cacheLookup (cacheKey url ps) L1.cacheAfter = some ⟨v, t1p + ttl⟩) ∧
    (t2c < t1p + ttl →
      getModel L1.cacheAfter (cacheKey url ps) true ttl t2c t2p d2 =
        ⟨Except.ok v, L1.cacheAfter, 0⟩) ∧
    (t1p + ttl ≤ t2c →
      (getModel L1.cacheAfter (cacheKey url ps) true ttl t2c t2p d2).dispatches = 1 ∧
      (∀ w, d2 = Except.ok w →
        cacheLookup (cacheKey url ps)
          (getModel L1.cacheAfter (cacheKey url ps) true ttl t2c t2p d2).cacheAfter =
          some ⟨w, t2p + ttl⟩)) := by
  intro L1
  have hL1 : L1 = ⟨Except.ok v, cachePut (cacheKey url ps) ⟨v, t1p + ttl⟩ c, 1⟩ := by
    simp [L1, getModel, hmiss]
  have hlook : cacheLookup (cacheKey url ps) L1.cacheAfter = some ⟨v, t1p + ttl⟩ := by
    rw [hL1]
    exact cacheLookup_put_self _ _ _
  refine ⟨⟨by rw [hL1], by rw [hL1], hlook⟩, ?_, ?_⟩
  · intro hfresh
    simp [getModel, hlook, hfresh]
  · intro hexp
    have hnot : ¬ t2c < t1p + ttl := by omega
    constructor
    · cases d2 with
      | ok w => simp [getModel, hlook, hnot]
      | error e => simp [getModel, hlook, hnot]
    · intro w hw
      subst hw
      simp [getModel, hlook, hnot, cacheLookup_put_self]

/-- The concrete first call of the C6 witness scenario: empty cache, TTL
1000, checked at t=5, populated at t=9 with payload 42. -/
def getC6first : GetLog Unit Nat (List Char) :=
  getModel [] (cacheKey itemsPath [paramA]) true 1000 5 9 (Except.ok 42)

theorem get_cache_ttl_contract_witness :
    (getC6first.result = Except.ok 42 ∧ getC6first.dispatches = 1 ∧
      cacheLookup (cacheKey itemsPath [paramA]) getC6first.cacheAfter = some ⟨42, 1009⟩) ∧
    getModel getC6first.cacheAfter (cacheKey itemsPath [paramA]) true 1000 900 905
      (Except.ok 7 : Except Unit Nat) = ⟨Except.ok 42, getC6first.cacheAfter, 0⟩ ∧
    (getModel getC6first.cacheAfter (cacheKey itemsPath [paramA]) true 1000 1009 1010
      (Except.ok 7 : Except Unit Nat)).dispatches = 1 ∧
    cacheLookup (cacheKey itemsPath [paramA])
      (getModel getC6first.cacheAfter (cacheKey itemsPath [paramA]) true 1000 1009 1010
        (Except.ok 7 : Except Unit Nat)).cacheAfter = some ⟨7, 2010⟩ := by
  have h1 := get_cache_ttl_contract ([] : List (List Char × CacheEntry Nat))
    itemsPath [paramA] 1000 5 9 900 905 42
    (Except.ok 7 : Except Unit Nat) rfl
  have h2 := get_cache_ttl_contract ([] : List (List Char × CacheEntry Nat))
    itemsPath [paramA] 1000 5 9 1009 1010 42
    (Except.ok 7 : Except Unit Nat) rfl
  exact ⟨h1.1, h1.2.1 (by omega), (h2.2.2 (by omega)).1, (h2.2.2 (by omega)).2 7 rfl⟩

/-- C10: for every GET call, if the dispatch — the whole retry-wrapped
transport call — ultimately fails, the cache is left exactly unchanged;
and in general an entry observable after a `get` is either an entry of the
prior cache or the payload of the call's successfully completed dispatch
stored under the call's key. -/
theorem get_no_cache_on_failure {ε : Type u} {α : Type v}
    (c : List (List Char × CacheEntry α)) (url : List Char)
    (ps : List (List Char × List Char)) (useCache : Bool)
    (ttl tCheck tPut K d : Nat) (f : Nat → Except ε α) :
    (∀ e, (withRetry f 0 K d).1 = Except.error e →
      (getModel c (cacheKey url ps) useCache ttl tCheck tPut
        (withRetry f 0 K d).1).cacheAfter = c) ∧
    (∀ k2, cacheLookup k2
        (getModel c (cacheKey url ps) useCache ttl tCheck tPut
          (withRetry f 0 K d).1).cacheAfter = cacheLookup k2 c ∨
      (∃ w, (withRetry f 0 K d).1 = Except.ok w ∧ k2 = cacheKey url ps ∧
        cacheLookup k2
          (getModel c (cacheKey url ps) useCache ttl tCheck tPut
            (withRetry f 0 K d).1).cacheAfter = some ⟨w, tPut + ttl⟩)) := by
  constructor
  · intro e he
    rw [he]
    unfold getModel
    cases hhit : (if useCache then cacheLookup (cacheKey url ps) c else none) with
    | none => simp [hhit]
    | some entry =>
      by_cases ht : tCheck < entry.expiry
      · simp [hhit, ht]
      · simp [hhit, ht]
  · intro k2
    unfold getModel
    cases hhit : (if useCache then cacheLookup (cacheKey url ps) c else none) with
    | none =>
      cases hd : (withRetry f 0 K d).1 with
      | error e => left; simp [hhit, hd]
      | ok w =>
        cases useCache with
        | false => left; simp [hhit, hd]
        | true =>
          by_cases hk : k2 = cacheKey url ps
          · right
            subst hk
            exact ⟨w, rfl, rfl, by simp [hhit, hd, cacheLookup_put_self]⟩
          · left
            simp only [hhit, hd]
            simpa using cacheLookup_put_other (cacheKey url ps) k2 _ c
              (fun h => hk h.symm)
    | some entry =>
      by_cases ht : tCheck < entry.expiry
      · left; simp [hhit, ht]
      · cases hd : (withRetry f 0 K d).1 with
        | error e => left; simp [hhit, ht, hd]
        | ok w =>
          cases useCache with
          | false => left; simp [hhit, hd, ht]
          | true =>
            by_cases hk : k2 = cacheKey url ps
            · right
              subst hk
              exact ⟨w, rfl, rfl, by simp [hhit, ht, hd, cacheLookup_put_self]⟩
            · left
              simp only [hhit, ht, hd, if_neg ht, if_true]
              simpa using cacheLookup_put_other (cacheKey url ps) k2 _ c
                (fun h => hk h.symm)

theorem get_no_cache_on_failure_witness :
    (getModel ([] : List (List Char × CacheEntry Nat)) (cacheKey itemsPath [paramA])
      true 1000 5 9 (withRetry alwaysFail 0 2 100).1).cacheAfter = [] :=
  (get_no_cache_on_failure [] itemsPath [paramA] true 1000 5 9 2 100 alwaysFail).1
    2 rfl

/-! ## Access-token validity (`isAccessTokenValid`, lines 138-148)

```ts
public isAccessTokenValid(): boolean {
  const tokens = this.getTokens()
  if (!tokens?.access) return false
  try {
    const decoded: any = jwtDecode(tokens.access)
    const currentTime = Date.now() / 1000
    return decoded.exp >= currentTime
  } catch (e) { return false }
}
```

The access token is modelled at the granularity `jwtDecode` observes: it
either throws (malformed) or yields a payload whose `exp` claim may be
absent.  `stored = none` covers both "no tokens in storage" and a falsy
`access` field; `decoded.exp >= currentTime` with an absent `exp` claim is
the JS comparison `undefined >= n`, which is `false`.  Times are `Int`
seconds. -/

structure JwtPayload where
  exp : Option Int
  deriving DecidableEq

inductive JwtTok
  | malformed
  | valid (payload : JwtPayload)
  deriving DecidableEq

/-- `jwtDecode`: the payload, or `none` when the library throws. -/
def jwtDecodeModel : JwtTok → Option JwtPayload
  | JwtTok.malformed => none
  | JwtTok.valid p => some p

structure StoredJwt where
  access : Option JwtTok
  deriving DecidableEq

def isAccessTokenValid (stored : Option StoredJwt) (now : Int) : Bool :=
  match stored with
  | none => false
  | some t =>
    match t.access with
    | none => false
    | some tok =>
      match jwtDecodeModel tok with
      | none => false
      | some p =>
        match p.exp with
        | some e => decide (e ≥ now)
        | none => false

/-- C7: `isAccessTokenValid` returns `true` iff an access token is stored,
it decodes successfully, and its `exp` claim satisfies `exp >= currentTime`;
in particular a token whose expiry is in the past yields `false`, and a
malformed (undecodable) token yields `false` — a value, not an exception
(the model is a total function into `Bool`). -/
theorem isAccessTokenValid_spec :
    ∀ (stored : Option StoredJwt) (now : Int),
      (isAccessTokenValid stored now = true ↔
        ∃ t p e, stored = some t ∧ t.access = some (JwtTok.valid p) ∧
          p.exp = some e ∧ now ≤ e) ∧
      (∀ t p e, stored = some t → t.access = some (JwtTok.valid p) →
        p.exp = some e → e < now → isAccessTokenValid stored now = false) ∧
      (∀ t, stored = some t → t.access = some JwtTok.malformed →
        isAccessTokenValid stored now = false) := by
  intro stored now
  refine ⟨⟨?_, ?_⟩, ?_, ?_⟩
  · intro h
    cases stored with
    | none => simp [isAccessTokenValid] at h
    | some t =>
      cases ht : t.access with
      | none => simp [isAccessTokenValid, ht] at h
      | some tok =>
        cases tok with
        | malformed => simp [isAccessTokenValid, ht, jwtDecodeModel] at h
        | valid p =>
          cases hp : p.exp with
          | none => simp [isAccessTokenValid, ht, jwtDecodeModel, hp] at h
          | some e =>
            simp only [isAccessTokenValid, ht, jwtDecodeModel, hp,
              decide_eq_true_eq] at h
            exact ⟨t, p, e, rfl, ht, hp, h⟩
  · rintro ⟨t, p, e, rfl, ht, hp, he⟩
    simp [isAccessTokenValid, ht, jwtDecodeModel, hp, he]
  · rintro t p e rfl ht hp hlt
    have hne : ¬ (e ≥ now) := by omega
    simp [isAccessTokenValid, ht, jwtDecodeModel, hp, hne]
  · rintro t rfl ht
    simp [isAccessTokenValid, ht, jwtDecodeModel]

theorem isAccessTokenValid_spec_witness :
    isAccessTokenValid (some ⟨some (JwtTok.valid ⟨some 100⟩)⟩) 200 = false ∧
    isAccessTokenValid (some ⟨some JwtTok.malformed⟩) 200 = false ∧
    isAccessTokenValid (some ⟨some (JwtTok.valid ⟨some 300⟩)⟩) 200 = true :=
  ⟨(isAccessTokenValid_spec _ 200).2.1 _ _ 100 rfl rfl rfl (by omega),
   (isAccessTokenValid_spec _ 200).2.2 _ rfl rfl,
   (isAccessTokenValid_spec _ 200).1.mpr ⟨_, _, 300, rfl, rfl, rfl, by omega⟩⟩

/-! ## Request-configuration resolution (constructor lines 19-37, `get` lines 176-191)

```ts
this.config = { ...defaultConfig, ...config }
...
const useCache = cache !== undefined ? cache : this.config.enableCache
const cacheTime = cacheDuration || this.config.cacheDuration || 5 * 60 * 1000
const shouldRetry = retry !== undefined ? retry : this.config.enableRetry
const maxRetries = retryCount || this.config.retryCount || 3
const delay = retryDelay || this.config.retryDelay || 1000
```

Booleans are resolved by an `undefined` check, numbers by JS truthiness
(`||`), under which `0` is falsy.  `Option.none` models an absent
(`undefined`) field. -/

structure UserConfig where
  enableCache : Option Bool
  cacheDuration : Option Nat
  enableRetry : Option Bool
  retryCount : Option Nat
  retryDelay : Option Nat
  deriving DecidableEq

/-- `{ ...defaultConfig, ...config }` (line 37): a field the user supplies
wins; otherwise the hardcoded default of lines 29-33 applies. -/
def mergeConfig (u : UserConfig) : UserConfig :=
  { enableCache := some (u.enableCache.getD true)
  , cacheDuration := some (u.cacheDuration.getD (5 * 60 * 1000))
  , enableRetry := some (u.enableRetry.getD true)
  , retryCount := some (u.retryCount.getD 3)
  , retryDelay := some (u.retryDelay.getD 1000) }

structure CallOptions where
  cache : Option Bool
  cacheDuration : Option Nat
  retry : Option Bool
  retryCount : Option Nat
  retryDelay : Option Nat
  deriving DecidableEq

/-- JS `a || b` for an optionally-present number `a`: both `undefined` and
`0` are falsy and fall through to `b`. -/
def jsOrNat : Option Nat → Nat → Nat
  | some n, d => if n = 0 then d else n
  | none, d => d

structure ResolvedOptions where
  useCache : Bool
  cacheTime : Nat
  shouldRetry : Bool
  maxRetries : Nat
  delay : Nat
  deriving DecidableEq

/-- The option resolution at the top of `get` (lines 185-190); an absent
client-wide boolean flag is falsy where the code consults it. -/
def resolveGet (cfg : UserConfig) (o : CallOptions) : ResolvedOptions :=
  { useCache := match o.cache with
      | some b => b
      | none => cfg.enableCache.getD false
  , cacheTime := jsOrNat o.cacheDuration (jsOrNat cfg.cacheDuration (5 * 60 * 1000))
  , shouldRetry := match o.retry with
      | some b => b
      | none => cfg.enableRetry.getD false
  , maxRetries := jsOrNat o.retryCount (jsOrNat cfg.retryCount 3)
  , delay := jsOrNat o.retryDelay (jsOrNat cfg.retryDelay 1000) }

/-- C8 counterexample: a per-call `retryCount` explicitly set to the falsy
value `0` is ignored — the resolved configuration uses the fallback `3`,
not the caller's value, refuting "the resolved request configuration uses
the per-call value when it is set ... including falsy values such as 0". -/
theorem resolveGet_falsy_zero_ignored :
    (CallOptions.mk none none none (some 0) none).retryCount = some 0 ∧
    (resolveGet (mergeConfig ⟨none, none, none, none, none⟩)
      ⟨none, none, none, some 0, none⟩).maxRetries = 3 ∧ (3 : Nat) ≠ 0 := by
  refine ⟨rfl, rfl, by omega⟩

/-- C8 amended: the per-call boolean flags `cache` and `retry` take
precedence for every set value including `false`, falling back to the
client-wide flag (default `true`) when unset; the numeric options
`cacheDuration`, `retryCount`, `retryDelay` are resolved by JS truthiness,
so a nonzero per-call value takes precedence, but a per-call value of `0`
(like an unset one) falls through to the client-wide value, and a
client-wide `0` (like an unset one) to the hardcoded defaults of 5-minute
cache TTL, retry count 3 and initial delay 1000 ms. -/
theorem resolveGet_precedence : ∀ (u : UserConfig) (o : CallOptions),
    (∀ b, o.cache = some b → (resolveGet (mergeConfig u) o).useCache = b) ∧
    (o.cache = none →
      (resolveGet (mergeConfig u) o).useCache = u.enableCache.getD true) ∧
    (∀ b, o.retry = some b → (resolveGet (mergeConfig u) o).shouldRetry = b) ∧
    (o.retry = none →
      (resolveGet (mergeConfig u) o).shouldRetry = u.enableRetry.getD true) ∧
    (∀ n, n ≠ 0 → o.retryCount = some n →
      (resolveGet (mergeConfig u) o).maxRetries = n) ∧
    ((o.retryCount = none ∨ o.retryCount = some 0) →
      (resolveGet (mergeConfig u) o).maxRetries = jsOrNat u.retryCount 3) ∧
    (∀ n, n ≠ 0 → o.cacheDuration = some n →
      (resolveGet (mergeConfig u) o).cacheTime = n) ∧
    ((o.cacheDuration = none ∨ o.cacheDuration = some 0) →
      (resolveGet (mergeConfig u) o).cacheTime = jsOrNat u.cacheDuration (5 * 60 * 1000)) ∧
    (∀ n, n ≠ 0 → o.retryDelay = some n →
      (resolveGet (mergeConfig u) o).delay = n) ∧
    ((o.retryDelay = none ∨ o.retryDelay = some 0) →
      (resolveGet (mergeConfig u) o).delay = jsOrNat u.retryDelay 1000) := by
  intro u o
  refine ⟨?_, ?_, ?_, ?_, ?_, ?_, ?_, ?_, ?_, ?_⟩
  · intro b hb; simp [resolveGet, hb]
  · intro hb; simp [resolveGet, hb, mergeConfig]
  · intro b hb; simp [resolveGet, hb]
  · intro hb; simp [resolveGet, hb, mergeConfig]
  · intro n hn h; simp [resolveGet, h, jsOrNat, hn]
  · rintro (h | h) <;> rcases hu : u.retryCount with _ | m <;>
      simp [resolveGet, h, hu, mergeConfig, jsOrNat]
  · intro n hn h; simp [resolveGet, h, jsOrNat, hn]
  · rintro (h | h) <;> rcases hu : u.cacheDuration with _ | m <;>
      simp [resolveGet, h, hu, mergeConfig, jsOrNat]
  · intro n hn h; simp [resolveGet, h, jsOrNat, hn]
  · rintro (h | h) <;> rcases hu : u.retryDelay with _ | m <;>
      simp [resolveGet, h, hu, mergeConfig, jsOrNat]

theorem resolveGet_precedence_witness :
    (resolveGet (mergeConfig ⟨none, none, none, none, none⟩)
      ⟨some false, none, none, some 7, none⟩).useCache = false ∧
    (resolveGet (mergeConfig ⟨none, none, none, none, none⟩)
      ⟨some false, none, none, some 7, none⟩).maxRetries = 7 :=
  ⟨(resolveGet_precedence _ _).1 false rfl,
   (resolveGet_precedence _ _).2.2.2.2.1 7 (by omega) rfl⟩

/-! ## Token store and refresh (`getTokens`/`refreshToken`, lines 112-135)

```ts
public getTokens(): AuthTokens | null {
  const tokensString = this.storage.getItem(this.config.tokenStorageKey!)
  return tokensString ? JSON.parse(tokensString) : null
}
public async refreshToken(): Promise<boolean> {
  const tokens = this.getTokens()
  if (!tokens?.refresh) return false
  try {
    const response = await axios.post(`${baseURL}${refresh}`, { refresh: tokens.refresh })
    this.storeTokens({ ...tokens, access: response.data.access })
    return true
  } catch (error) { this.clearTokens(); return false }
}
```

A token field that is absent or empty (falsy) is `none`.  The storage
slot holds either a parsable blob or a corrupted string — `JSON.parse` of
the latter throws, and that call sits OUTSIDE `refreshToken`'s try/catch.
`net` is the settled outcome of the `axios.post`; a fulfilled response
contributes `response.data.access` (possibly absent). -/

structure AuthToks where
  access : Option String
  refresh : Option String
  deriving DecidableEq

inductive StoredBlob
  | good (t : AuthToks)
  | corrupt
  deriving DecidableEq

/-- `getTokens`: parsed pair, `none` for an empty slot, or a thrown
`SyntaxError` (`Except.error`) on a corrupted blob. -/
def getTokensE : Option StoredBlob → Except Unit (Option AuthToks)
  | none => Except.ok none
  | some (StoredBlob.good t) => Except.ok (some t)
  | some StoredBlob.corrupt => Except.error ()

structure RefreshLog where
  result : Except Unit Bool
  storageAfter : Option StoredBlob
  networkCalls : Nat

def refreshToken (stored : Option StoredBlob)
    (net : Except Unit (Option String)) : RefreshLog :=
  match getTokensE stored with
  | Except.error _ => ⟨Except.error (), stored, 0⟩
  | Except.ok none => ⟨Except.ok false, stored, 0⟩
  | Except.ok (some t) =>
    match t.refresh with
    | none => ⟨Except.ok false, stored, 0⟩
    | some _ =>
      match net with
      | Except.ok newAccess =>
          ⟨Except.ok true,
            some (StoredBlob.good { t with access := newAccess }), 1⟩
      | Except.error _ => ⟨Except.ok false, none, 1⟩

/-- The refresh token visible in a stored blob, if any. -/
def refreshOf : Option StoredBlob → Option String
  | some (StoredBlob.good t) => t.refresh
  | _ => none

/-- The access token visible in a stored blob, if any. -/
def accessOf : Option StoredBlob → Option String
  | some (StoredBlob.good t) => t.access
  | _ => none

/-- C9 counterexample: when the storage slot holds a string that does not
parse as JSON, `getTokens()`'s `JSON.parse` throws outside `refreshToken`'s
try/catch, so the returned promise REJECTS — refuting "resolves to a
boolean for every possible outcome and never rejects". -/
theorem refreshToken_rejects_on_corrupt_storage :
    (refreshToken (some StoredBlob.corrupt) (Except.ok (some "x"))).result =
      Except.error () := rfl

/-- C9 amended: on every outcome in which the stored token blob is absent
or parses, `refreshToken` resolves to a boolean and never rejects: with no
refresh token stored it resolves `false` with no network activity and no
storage modification, and when the refresh network call fails it clears
the stored tokens and resolves `false`.  (The one rejection path is a
stored blob that `JSON.parse` cannot parse — see the counterexample.) -/
theorem refreshToken_resolves_boolean :
    ∀ (stored : Option StoredBlob) (net : Except Unit (Option String)),
      (∀ t, stored = some t → t ≠ StoredBlob.corrupt) →
      (∃ b, (refreshToken stored net).result = Except.ok b) ∧
      (refreshOf stored = none →
        refreshToken stored net = ⟨Except.ok false, stored, 0⟩) ∧
      (∀ rt, refreshOf stored = some rt → ∀ u2, net = Except.error u2 →
        refreshToken stored net = ⟨Except.ok false, none, 1⟩) := by
  intro stored net hgood
  cases stored with
  | none =>
    exact ⟨⟨false, rfl⟩, fun _ => rfl, fun rt h => by simp [refreshOf] at h⟩
  | some blob =>
    cases blob with
    | corrupt => exact absurd rfl (hgood _ rfl)
    | good t =>
      cases hr : t.refresh with
      | none =>
        refine ⟨⟨false, ?_⟩, fun _ => ?_, fun rt h => ?_⟩
        · simp [refreshToken, getTokensE, hr]
        · simp [refreshToken, getTokensE, hr]
        · rw [show refreshOf (some (StoredBlob.good t)) = t.refresh from rfl, hr]
            at h
          exact absurd h (by simp)
      | some r =>
        cases net with
        | ok na =>
          refine ⟨⟨true, ?_⟩, fun habs => ?_, fun rt _ u2 hnet => ?_⟩
          · simp [refreshToken, getTokensE, hr]
          · rw [show refreshOf (some (StoredBlob.good t)) = t.refresh from rfl,
              hr] at habs
            exact absurd habs (by simp)
          · exact absurd hnet (by simp)
        | error u =>
          refine ⟨⟨false, ?_⟩, fun habs => ?_, fun rt _ u2 _ => ?_⟩
          · simp [refreshToken, getTokensE, hr]
          · rw [show refreshOf (some (StoredBlob.good t)) = t.refresh from rfl,
              hr] at habs
            exact absurd habs (by simp)
          · simp [refreshToken, getTokensE, hr]

theorem refreshToken_resolves_boolean_witness :
    refreshToken (some (StoredBlob.good ⟨some "a", some "r"⟩))
      (Except.error ()) = ⟨Except.ok false, none, 1⟩ :=
  (refreshToken_resolves_boolean _ _
    (fun t ht => by cases ht; intro hc; cases hc)).2.2 "r" rfl () rfl

/-! ## Response interceptor: 401 → refresh → single replay (lines 84-104)

```ts
this.instance.interceptors.response.use(
  response => response,
  async error => {
    const originalRequest = error.config
    if (error.response?.status === 401 && !originalRequest._retry) {
      originalRequest._retry = true
      try {
        const refreshed = await this.refreshToken()
        if (refreshed) {
          const tokens = this.getTokens()
          originalRequest.headers.Authorization = `Bearer ...`
          return this.instance(originalRequest)
        }
      } catch (refreshError) {
        this.clearTokens()
        if (this.config.onAuthError) this.config.onAuthError()
      }
    }
    return Promise.reject(error)
  }
)
```

`dispatchOnce` models one transport dispatch through `this.instance` —
one invocation of `requestFn`, i.e. one fresh axios config whose `_retry`
flag starts unset.  `t1` is the transport's response to the original
request and `t2` its response to the replay (consulted only if a replay
happens); responses carry a numeric identity so that "WHICH failure
propagates" is observable.  The replay reuses `originalRequest`, whose
`_retry` is set, so the replay's own interceptor pass rejects its error
without another refresh. -/

inductive Resp (α : Type u)
  | success (v : α)
  | http401 (id : Nat)
  | failure (id : Nat)
  deriving DecidableEq

inductive ReqErr
  | e401 (id : Nat)
  | eOther (id : Nat)
  deriving DecidableEq

structure DispatchLog (α : Type u) where
  result : Except ReqErr α
  storageAfter : Option StoredBlob
  refreshAttempts : Nat
  replays : Nat
  callbackInvoked : Bool
  replayAuth : Option (Option String)

def dispatchOnce {α : Type u} (storage : Option StoredBlob) (hasCb : Bool)
    (t1 t2 : Resp α) (net : Except Unit (Option String)) : DispatchLog α :=
  match t1 with
  | Resp.success v => ⟨Except.ok v, storage, 0, 0, false, none⟩
  | Resp.failure i => ⟨Except.error (ReqErr.eOther i), storage, 0, 0, false, none⟩
  | Resp.http401 i =>
    let r := refreshToken storage net
    match r.result with
    | Except.ok true =>
      -- lines 93-95: the auth header is rebuilt from the freshly stored
      -- tokens (the request interceptor re-reads them) and the request
      -- is replayed exactly once.
      let hdr := accessOf r.storageAfter
      match t2 with
      | Resp.success v =>
          ⟨Except.ok v, r.storageAfter, 1, 1, false, some hdr⟩
      | Resp.http401 j =>
          ⟨Except.error (ReqErr.e401 j), r.storageAfter, 1, 1, false, some hdr⟩
      | Resp.failure j =>
          ⟨Except.error (ReqErr.eOther j), r.storageAfter, 1, 1, false, some hdr⟩
    | Except.ok false =>
      -- `refreshed` is false, so the `if` body is skipped and control
      -- falls through to `Promise.reject(error)` with the ORIGINAL 401;
      -- the catch block (and with it `onAuthError`) does not run.
      ⟨Except.error (ReqErr.e401 i), r.storageAfter, 1, 0, false, none⟩
    | Except.error _ =>
      -- `refreshToken` itself threw (only possible from `getTokens`):
      -- lines 97-100 clear the tokens and invoke the callback, then the
      -- original 401 is rejected.
      ⟨Except.error (ReqErr.e401 i), none, 1, 0, hasCb, none⟩

/-- C3 (code bug): a request gets a 401 and the refresh attempt fails.
First conjunct — tokens with a refresh token are stored but the refresh
network call fails: `refreshToken` RESOLVES `false` instead of rejecting,
so the interceptor's catch block, the only site that invokes `onAuthError`,
never runs: `callbackInvoked = false` even though a callback is configured
(the tokens were cleared, inside `refreshToken`, and the originating 401
propagates).  Second conjunct — no refresh token is stored: again the
callback is not invoked, and here the stored tokens are NOT cleared
either. -/
theorem interceptor_callback_never_fires :
    dispatchOnce (some (StoredBlob.good ⟨some "a", some "r"⟩)) true
      (Resp.http401 7) (Resp.failure 9 : Resp Nat) (Except.error ()) =
      ⟨Except.error (ReqErr.e401 7), none, 1, 0, false, none⟩ ∧
    dispatchOnce (some (StoredBlob.good ⟨some "a", none⟩)) true
      (Resp.http401 7) (Resp.failure 9 : Resp Nat) (Except.error ()) =
      ⟨Except.error (ReqErr.e401 7),
        some (StoredBlob.good ⟨some "a", none⟩), 1, 0, false, none⟩ :=
  ⟨rfl, rfl⟩

/-- C2 amended: within a SINGLE transport dispatch the claim holds — a 401
triggers exactly one refresh attempt; on refresh success the request is
replayed exactly once, carrying the new access token, and the replay's
outcome is what the dispatch settles with (a replay 401 propagates with no
second refresh inside this dispatch); on refresh failure there is no
replay and the original 401 propagates, still after exactly one refresh
attempt.  Across the whole logical request, however, the per-dispatch
`_retry` guard is recreated by each retry attempt, so with retry enabled a
logical request can refresh more than once (see the counterexample). -/
theorem dispatch_single_refresh {α : Type u} :
    ∀ (t : AuthToks) (r na : String) (hasCb : Bool) (i : Nat) (t2 : Resp α),
      t.refresh = some r →
      (let L := dispatchOnce (some (StoredBlob.good t)) hasCb
          (Resp.http401 i) t2 (Except.ok (some na))
       L.refreshAttempts = 1 ∧ L.replays = 1 ∧
       L.replayAuth = some (some na) ∧
       (∀ v, t2 = Resp.success v → L.result = Except.ok v) ∧
       (∀ j, t2 = Resp.http401 j → L.result = Except.error (ReqErr.e401 j))) ∧
      (let F := dispatchOnce (some (StoredBlob.good t)) hasCb
          (Resp.http401 i) t2 (Except.error ())
       F.refreshAttempts = 1 ∧ F.replays = 0 ∧
       F.result = Except.error (ReqErr.e401 i)) := by
  intro t r na hasCb i t2 hr
  have hok : refreshToken (some (StoredBlob.good t)) (Except.ok (some na)) =
      ⟨Except.ok true,
        some (StoredBlob.good { t with access := some na }), 1⟩ := by
    simp [refreshToken, getTokensE, hr]
  have hfail : refreshToken (some (StoredBlob.good t)) (Except.error ()) =
      ⟨Except.ok false, none, 1⟩ := by
    simp [refreshToken, getTokensE, hr]
  constructor
  · cases t2 <;> simp [dispatchOnce, hok, accessOf]
  · cases t2 <;> simp [dispatchOnce, hfail]

theorem dispatch_single_refresh_witness :
    (dispatchOnce (some (StoredBlob.good ⟨some "a", some "r"⟩)) false
      (Resp.http401 4) (Resp.http401 5 : Resp Nat)
      (Except.ok (some "na2"))).refreshAttempts = 1 ∧
    (dispatchOnce (some (StoredBlob.good ⟨some "a", some "r"⟩)) false
      (Resp.http401 4) (Resp.http401 5 : Resp Nat)
      (Except.ok (some "na2"))).result = Except.error (ReqErr.e401 5) := by
  have h := dispatch_single_refresh ⟨some "a", some "r"⟩ "r" "na2" false 4
    (Resp.http401 5 : Resp Nat) rfl
  exact ⟨h.1.1, h.1.2.2.2.2 5 rfl⟩

structure PipelineLog (α : Type u) where
  result : Except ReqErr α
  storageAfter : Option StoredBlob
  refreshAttempts : Nat
  attempts : Nat

/-- The full `get` dispatch with retry enabled (lines 201-205): `withRetry`
around `requestFn`, where every invocation of `requestFn` builds a FRESH
axios config (`{ ...axiosConfig, method: 'get', url }`), so each attempt's
`_retry` replay guard starts unset.  `script n` gives the transport's
(original, replay) responses during attempt `n`, and `net n` the refresh
endpoint's outcome during attempt `n`; the retry delays are irrelevant
here and not tracked. -/
def dispatchWithRetry {α : Type u} (storage : Option StoredBlob) (hasCb : Bool)
    (script : Nat → Resp α × Resp α) (net : Nat → Except Unit (Option String))
    (attempt retryCount : Nat) : PipelineLog α :=
  let L := dispatchOnce storage hasCb (script attempt).1 (script attempt).2
    (net attempt)
  match L.result with
  | Except.ok v => ⟨Except.ok v, L.storageAfter, L.refreshAttempts, 1⟩
  | Except.error e =>
    match retryCount with
    | 0 => ⟨Except.error e, L.storageAfter, L.refreshAttempts, 1⟩
    | Nat.succ n =>
      let R := dispatchWithRetry L.storageAfter hasCb script net (attempt + 1) n
      ⟨R.result, R.storageAfter, L.refreshAttempts + R.refreshAttempts,
        R.attempts + 1⟩

/-- Transport that answers 401 to every request and every replay. -/
def always401Script : Nat → Resp Nat × Resp Nat :=
  fun n => (Resp.http401 (2 * n), Resp.http401 (2 * n + 1))

/-- Refresh endpoint that succeeds on every call. -/
def alwaysFreshNet : Nat → Except Unit (Option String) :=
  fun _ => Except.ok (some "new")

/-- C2 counterexample: ONE logical GET request with retry enabled
(retryCount 1), a transport that replies 401 to the request and to its
replay, and a refresh endpoint that succeeds.  The logical request performs
TWO refresh attempts — the `_retry` replay guard lives on the per-attempt
config object that `requestFn` recreates, so the retry attempt refreshes
again — refuting "exactly one refresh attempt is made ... with no second
refresh attempt" at the logical-request level. -/
theorem get_retry_second_refresh :
    (dispatchWithRetry (some (StoredBlob.good ⟨some "a", some "r"⟩)) false
      always401Script alwaysFreshNet 0 1).refreshAttempts = 2 := rfl

/-! ## Concurrent refresh (C1): two in-flight `refreshToken()` tasks

`ApiClient`'s only instance state is `instance`, `config`, `storage` and
`cache` (lines 13-16): there is no "refresh in progress" handle, so a
`refreshToken()` invocation consults nothing before issuing its network
call.  `refreshStep` decomposes `refreshToken` at its one suspension
point (the awaited `axios.post`): from `start` the task runs the
synchronous prefix of lines 122-127, reading the token store and issuing
the POST; from `awaitNet` it resumes at lines 129-133 once its own network
call settles.  `refreshStep_solo` checks the decomposition against
`refreshToken` itself. -/

inductive RPc
  | start
  | awaitNet (t : AuthToks)
  | done (res : Except Unit Bool)

def refreshStep (storage : Option StoredBlob) (pc : RPc)
    (net : Except Unit (Option String)) : Option StoredBlob × RPc × Nat :=
  match pc with
  | RPc.start =>
    match getTokensE storage with
    | Except.error _ => (storage, RPc.done (Except.error ()), 0)
    | Except.ok none => (storage, RPc.done (Except.ok false), 0)
    | Except.ok (some t) =>
      match t.refresh with
      | none => (storage, RPc.done (Except.ok false), 0)
      | some _ => (storage, RPc.awaitNet t, 1)
  | RPc.awaitNet t =>
    match net with
    | Except.ok na =>
        (some (StoredBlob.good { t with access := na }),
          RPc.done (Except.ok true), 0)
    | Except.error _ => (none, RPc.done (Except.ok false), 0)
  | RPc.done r => (storage, RPc.done r, 0)

lemma refreshStep_solo (s : Option StoredBlob)
    (net : Except Unit (Option String)) :
    let st1 := refreshStep s RPc.start net
    let st2 := refreshStep st1.1 st1.2.1 net
    st2.2.1 = RPc.done (refreshToken s net).result ∧
    st2.1 = (refreshToken s net).storageAfter ∧
    st1.2.2 + st2.2.2 = (refreshToken s net).networkCalls := by
  cases s with
  | none => exact ⟨rfl, rfl, rfl⟩
  | some blob =>
    cases blob with
    | corrupt => exact ⟨rfl, rfl, rfl⟩
    | good t =>
      cases hr : t.refresh with
      | none => simp [refreshStep, refreshToken, getTokensE, hr]
      | some r =>
        cases net with
        | ok na => simp [refreshStep, refreshToken, getTokensE, hr]
        | error u => simp [refreshStep, refreshToken, getTokensE, hr]

/-- The cooperative interleaving in which both tasks observe the
pre-refresh state: task A runs to its await point, task B starts and runs
to its await point before A's network call settles, then each resumes.
Returns the total number of network calls made to the refresh endpoint. -/
def twoRefreshNetCalls (s0 : Option StoredBlob)
    (netA netB : Except Unit (Option String)) : Nat :=
  let a1 := refreshStep s0 RPc.start netA
  let b1 := refreshStep a1.1 RPc.start netB
  let a2 := refreshStep b1.1 a1.2.1 netA
  let b2 := refreshStep a2.1 b1.2.1 netB
  a1.2.2 + b1.2.2 + a2.2.2 + b2.2.2

/-- C1 (code bug): with a token pair stored, two concurrent
`refreshToken()` invocations that both begin before either's network call
settles each issue their own POST to the refresh endpoint — two network
calls, not the single coalesced call the specified single-flight design
requires. -/
theorem concurrent_refresh_not_single_flight :
    twoRefreshNetCalls (some (StoredBlob.good ⟨some "a", some "r"⟩))
      (Except.ok (some "n1")) (Except.ok (some "n2")) = 2 := rfl

end ApiClient
